import Mathlib

/-!
Shallow embedding of `src/lab1/notebooks/generate_dashboard (2).py`.

The script is a single linear pandas pipeline: load a CSV of reviews, derive a
sentiment column from the rating, aggregate (KPIs, rating histograms, monthly
volumes, a year-by-month density grid, top reviews by thumbs-up count, heuristic
language detection on a sample), and emit one HTML file built from the data.

Modelling conventions:
- a DataFrame row is a `Record`; a DataFrame is a `List Record` in file order;
- Python strings are `List Char` (lists of Unicode code points);
- `pd.to_datetime(..., errors := coerce)` yields `Option` dates (`none` = `NaT`);
- pandas stable selections/sorts (`nlargest` with keep-first, `sorted`,
  `groupby` keys) are modelled with `List.insertionSort`, which is stable;
- float expressions that the spec describes in exact real terms
  (`sqrt(count)*1.5` rounded to one decimal, percentage/mean rounding) are
  modelled over `ℚ`/`ℝ` with `round` (round half up); no rounding tie is hit in
  any concrete statement proved here, so the tie-breaking convention is
  immaterial;
- Python exceptions (`astype(int)` failures, `ZeroDivisionError`) are modelled
  with `Except`.
-/

namespace Dashboard

/-- The three sentiment labels derived from the rating (source lines 35-37). -/
inductive Sentiment
  | Positive
  | Neutral
  | Negative
deriving DecidableEq

/-- One loaded review row, after the load step (source lines 27-31): dates are
already coerced to `Option`, `rating` / `review_year` / `review_month` are
integers, `text` is a non-null string.  `author` stays possibly-missing: the
source only fills it inside the top-reviews projection (line 141). -/
structure Record where
  author : Option (List Char)
  rating : Int
  text : List Char
  review_date : Option (Nat × Nat × Nat)
  review_year : Int
  review_month : Int
  thumbs_up_count : Int
  text_length : Int
deriving DecidableEq

/-- Sentiment of a rating (source line 36):
`'Positive' if r >= 4 else ('Negative' if r <= 2 else 'Neutral')`. -/
def sentiment (r : Int) : Sentiment :=
  if 4 ≤ r then .Positive else if r ≤ 2 then .Negative else .Neutral

/-- `round(x, 2)` on the exact rational value. -/
def round2 (x : ℚ) : ℚ := (round (x * 100) : ℚ) / 100

/-- `round(x, 1)` on the exact rational value. -/
def round1 (x : ℚ) : ℚ := (round (x * 10) : ℚ) / 10

/-- KPI `avg_rating` (source line 42): `round(df['rating'].mean(), 2)`. -/
def avg_rating (l : List Record) : ℚ :=
  round2 ((l.map (fun r => (r.rating : ℚ))).sum / (l.length : ℚ))

/-- Count of records with rating ≥ 4 (source lines 43, 49). -/
def count_pos (l : List Record) : Nat := l.countP (fun r => decide (4 ≤ r.rating))

/-- Count of records with rating ≤ 2 (source lines 44, 50). -/
def count_neg (l : List Record) : Nat := l.countP (fun r => decide (r.rating ≤ 2))

/-- Count of records with rating == 3 (source lines 45, 51). -/
def count_neu (l : List Record) : Nat := l.countP (fun r => decide (r.rating = 3))

/-- A Python runtime error surfaced by the pipeline. -/
inductive PipeError
  | divisionByZero
deriving DecidableEq

/-- KPI `pct_positive` (source line 43):
`round(len(df[df['rating'] >= 4]) / total * 100, 1)`.  Dividing by
`total = len(df) = 0` raises `ZeroDivisionError` in Python, modelled as an
`Except.error`. -/
def pct_positive (l : List Record) : Except PipeError ℚ :=
  if l.length = 0 then .error .divisionByZero
  else .ok (round1 ((count_pos l : ℚ) / (l.length : ℚ) * 100))

/-- KPI `pct_negative` (source line 44). -/
def pct_negative (l : List Record) : Except PipeError ℚ :=
  if l.length = 0 then .error .divisionByZero
  else .ok (round1 ((count_neg l : ℚ) / (l.length : ℚ) * 100))

/-- KPI `pct_neutral` (source line 45). -/
def pct_neutral (l : List Record) : Except PipeError ℚ :=
  if l.length = 0 then .error .divisionByZero
  else .ok (round1 ((count_neu l : ℚ) / (l.length : ℚ) * 100))

/-- `rating_dist` (source lines 58-59): counts of each rating 1..5, in order. -/
def rating_dist (sub : List Record) : List Nat :=
  ([1, 2, 3, 4, 5] : List Int).map (fun v => sub.countP (fun x => decide (x.rating = v)))

/-- `df['review_year'].unique()`: distinct years of the table. -/
def uniqueYears (l : List Record) : List Int := (l.map (fun r => r.review_year)).dedup

/-- `full_years` (source line 64): `sorted(df['review_year'].unique())`
restricted to years strictly before the current calendar year, which enters the
script through `datetime.now().year` and is therefore an explicit parameter
here. -/
def full_years (l : List Record) (nowYear : Int) : List Int :=
  ((uniqueYears l).insertionSort (fun a b => a ≤ b)).filter (fun y => decide (y < nowYear))

/-- `rating_by_year` (source lines 65-67): the per-year rating histograms, one
entry per full year. -/
def rating_by_year (l : List Record) (nowYear : Int) : List (Int × List Nat) :=
  (full_years l nowYear).map
    (fun y => (y, rating_dist (l.filter (fun r => decide (r.review_year = y)))))

/-- The `'ym'` group key of a row (source line 76).  The source builds the
string `str(year) + '-' + str(month).zfill(2)`; distinct `(year, month)` pairs
give distinct strings, so the key is modelled as the pair itself. -/
def ymKey (r : Record) : Int × Int := (r.review_year, r.review_month)

/-- Ordering of `'ym'` keys: `groupby('ym').size().sort_index()` sorts the
string keys; on four-digit years with zero-padded months 1..12 that string
order coincides with the lexicographic order on `(year, month)`. -/
def ymLE (a b : Int × Int) : Prop := a.1 < b.1 ∨ (a.1 = b.1 ∧ a.2 ≤ b.2)

instance : DecidableRel ymLE := fun a b => by
  unfold ymLE
  infer_instance

/-- The index of `monthly_all` (source line 77): the distinct observed `'ym'`
keys in sorted order. -/
def monthlyIndex (l : List Record) : List (Int × Int) :=
  ((l.map ymKey).dedup).insertionSort ymLE

/-- `monthly_all` (source lines 77, 80-81): per observed `'ym'` key, the number
of records with that key. -/
def monthly_all (l : List Record) : List ((Int × Int) × Nat) :=
  (monthlyIndex l).map (fun k => (k, l.countP (fun r => decide (ymKey r = k))))

/-- `monthly_pos` (source line 78): positive-sentiment counts grouped by `'ym'`
and reindexed onto the full observed index with missing buckets filled with 0;
as a function of the key this is exactly the count of positive records with
that key. -/
def monthly_pos (l : List Record) : List ((Int × Int) × Nat) :=
  (monthlyIndex l).map
    (fun k => (k, l.countP (fun r => decide (sentiment r.rating = .Positive ∧ ymKey r = k))))

/-- `monthly_neg` (source line 79): as `monthly_pos` for negative sentiment. -/
def monthly_neg (l : List Record) : List ((Int × Int) × Nat) :=
  (monthlyIndex l).map
    (fun k => (k, l.countP (fun r => decide (sentiment r.rating = .Negative ∧ ymKey r = k))))

/-- `hm_years` (source line 91): `sorted(df['review_year'].unique())`. -/
def hm_years (l : List Record) : List Int :=
  (uniqueYears l).insertionSort (fun a b => a ≤ b)

/-- Number of records of a given year and month (source line 96). -/
def countYM (l : List Record) (yr mo : Int) : Nat :=
  l.countP (fun r => decide (r.review_year = yr ∧ r.review_month = mo))

/-- The integer `round(sqrt(v) * 1.5 * 10)`, i.e. the bubble radius of the
density grid in tenths (source line 98 computes `round((val**0.5)*1.5, 1)`).
`hmRadiusNum v / 10` is that radius; the connection with the real-number
rounding of `sqrt(v)*15` is proved in `hmRadiusNum_eq_round_sqrt`. -/
def hmRadiusNum (v : Nat) : Nat :=
  if (2 * Nat.sqrt (225 * v) + 1) ^ 2 ≤ 4 * (225 * v) then Nat.sqrt (225 * v) + 1
  else Nat.sqrt (225 * v)

/-- One cell of the density grid (source line 98):
`{'x': yi, 'y': mi, 'r': round((val**0.5)*1.5, 1), 'v': val}`. -/
structure Cell where
  x : Nat
  y : Nat
  r : ℚ
  v : Nat
deriving DecidableEq

/-- `hm_data` (source lines 93-98): for every year index and every month index
`mi` (month `mi+1`), emit a cell when the count is positive. -/
def hm_data (l : List Record) : List Cell :=
  (hm_years l).enum.flatMap (fun p =>
    (List.range 12).flatMap (fun mi =>
      let val := countYM l p.2 ((mi : Int) + 1)
      if 0 < val then [⟨p.1, mi, (hmRadiusNum val : ℚ) / 10, val⟩] else []))

/-- The `(year, month)` pair a density-grid cell stands for: cells store the
index of the year in `hm_years` and the month index `mi = month - 1`. -/
def cellPair (l : List Record) (c : Cell) : Int × Int :=
  (((hm_years l).get? c.x).getD 0, (c.y : Int) + 1)

/-- The order used by `nlargest(12, 'thumbs_up_count')`: larger thumbs-up
counts first. -/
def thumbsGE (a b : Record) : Prop := b.thumbs_up_count ≤ a.thumbs_up_count

instance : DecidableRel thumbsGE := fun a b => by
  unfold thumbsGE
  infer_instance

instance : IsTotal Record thumbsGE :=
  ⟨fun a b => le_total b.thumbs_up_count a.thumbs_up_count⟩

instance : IsTrans Record thumbsGE :=
  ⟨fun _ _ _ h1 h2 => le_trans h2 h1⟩

/-- `top_reviews_raw` (source lines 139-141): `df.nlargest(12,
'thumbs_up_count')` — the 12 rows with the largest `thumbs_up_count`, in
descending order, first occurrences kept on ties (pandas `keep='first'`),
modelled as a stable sort followed by `take 12`. -/
def top_reviews_raw (l : List Record) : List Record :=
  (l.insertionSort thumbsGE).take 12

/-- One projected top-review entry (source lines 145-151). -/
structure TopReview where
  author : List Char
  rating : Int
  thumbs : Int
  date : List Char
  text : List Char
deriving DecidableEq

/-- Decimal digits of `n` (most significant first), as Python `str(n)`. -/
def natStr (n : Nat) : List Char := Nat.toDigits 10 n

/-- Two-digit zero padding of a month or day number. -/
def zfill2 (n : Nat) : List Char :=
  if n < 10 then '0' :: natStr n else natStr n

/-- Python `str(row['review_date'])` for a parsed date: a pandas `Timestamp`
prints as `YYYY-MM-DD HH:MM:SS` and a missing date prints as `NaT`
(source line 149 truncates this string to 10 characters). -/
def pyDateStr (d : Option (Nat × Nat × Nat)) : List Char :=
  match d with
  | none => ['N', 'a', 'T']
  | some (y, m, dd) =>
      natStr y ++ '-' :: zfill2 m ++ '-' :: zfill2 dd ++ (" 00:00:00".toList)

/-- Projection of a raw top review row (source lines 141, 145-151): missing
author becomes `"Anonymous"`, author truncated to 30 characters, the date
string to 10, the text to 300. -/
def projectReview (r : Record) : TopReview :=
  { author := (r.author.getD "Anonymous".toList).take 30
    rating := r.rating
    thumbs := r.thumbs_up_count
    date := (pyDateStr r.review_date).take 10
    text := r.text.take 300 }

/-- `top_reviews` (source lines 143-151). -/
def top_reviews (l : List Record) : List TopReview :=
  (top_reviews_raw l).map projectReview

/-- The three language labels of `detect_lang` (source lines 155-164). -/
inductive Lang
  | Arabic
  | French
  | English
deriving DecidableEq

/-- The Arabic-script character class of the regex `[؀-ۿ]`
(source line 157). -/
def isArabicChar (c : Char) : Bool :=
  decide (0x0600 ≤ c.toNat ∧ c.toNat ≤ 0x06FF)

/-- The Latin-letter character class of the regex `[a-zA-Zéèàùôâêîûïëüœ]`
(source line 158). -/
def isLatinChar (c : Char) : Bool :=
  decide (('a' ≤ c ∧ c ≤ 'z') ∨ ('A' ≤ c ∧ c ≤ 'Z') ∨ c ∈ "éèàùôâêîûïëüœ".toList)

/-- Python `str.lower`, restricted to ASCII letters and the Latin-1 uppercase
letters (the only uppercase characters the script's character classes and
markers can interact with). -/
def pyLower (c : Char) : Char :=
  let n := c.toNat
  if 65 ≤ n ∧ n ≤ 90 then Char.ofNat (n + 32)
  else if 192 ≤ n ∧ n ≤ 222 ∧ n ≠ 215 then Char.ofNat (n + 32)
  else c

/-- The French marker substrings (source line 161). -/
def fr_markers : List (List Char) :=
  ["le ", "la ", "les ", "est ", "pas ", "que ", "une ", "très ", "avec ", "pour ",
    "dans "].map String.toList

/-- The English marker substrings (source line 162). -/
def en_markers : List (List Char) :=
  ["the ", "and ", "this ", "that ", "very ", "not ", "good ", "was ", "have ",
    "you "].map String.toList

/-- Python substring containment `pat in s`. -/
def containsSubstring (pat s : List Char) : Bool :=
  (List.range (s.length + 1)).any (fun i => pat.isPrefixOf (s.drop i))

/-- Number of French markers present in a lower-cased text (source line 164,
`sum(m in t for m in fr_markers)`). -/
def frMarkerCount (t : List Char) : Nat :=
  fr_markers.countP (fun m => containsSubstring m t)

/-- Number of English markers present in a lower-cased text (source line 164). -/
def enMarkerCount (t : List Char) : Nat :=
  en_markers.countP (fun m => containsSubstring m t)

/-- `detect_lang` (source lines 155-164): Arabic when the Arabic code-point
count strictly exceeds the Latin-letter count, otherwise French when the
French marker count is at least the English marker count, else English. -/
def detect_lang (text : List Char) : Lang :=
  let arabic := text.countP isArabicChar
  let latin := text.countP isLatinChar
  if latin < arabic then .Arabic
  else
    let t := text.map pyLower
    if enMarkerCount t ≤ frMarkerCount t then .French else .English

/-- One raw CSV row before the parsing steps of lines 28-31: the date, rating,
year and month columns are still strings; `author` and `text` may be missing
(NaN). `thumbs_up_count` and `text_length` are already numeric out of
`read_csv`. -/
structure RawRow where
  author : Option (List Char)
  rating : List Char
  text : Option (List Char)
  review_date : List Char
  review_year : List Char
  review_month : List Char
  thumbs_up_count : Int
  text_length : Int

/-- Failure of the load step (source lines 29-30): `astype(int)` raises when a
value does not parse as an integer. -/
inductive LoadError
  | intParseError
deriving DecidableEq

/-- The per-row load step (source lines 28-31), parameterised by the integer
and date parsers of the host library:
`to_datetime(..., errors='coerce')` turns unparseable dates into `NaT`
(`none`) without failing; `astype(int)` on `rating` / `review_year` /
`review_month` fails the run when a value does not parse; missing `text`
becomes the empty string via `fillna('')`. -/
def loadRow (parseInt : List Char → Option Int)
    (parseDate : List Char → Option (Nat × Nat × Nat)) (row : RawRow) :
    Except LoadError Record :=
  match parseInt row.rating, parseInt row.review_year, parseInt row.review_month with
  | some ra, some yr, some mo =>
      .ok { author := row.author
            rating := ra
            text := row.text.getD []
            review_date := parseDate row.review_date
            review_year := yr
            review_month := mo
            thumbs_up_count := row.thumbs_up_count
            text_length := row.text_length }
  | _, _, _ => .error .intParseError

/-- The whole load step: every row is parsed; a failing `astype(int)` on any
row aborts the run. -/
def loadTable (parseInt : List Char → Option Int)
    (parseDate : List Char → Option (Nat × Nat × Nat)) :
    List RawRow → Except LoadError (List Record)
  | [] => .ok []
  | row :: rest => do
      let r ← loadRow parseInt parseDate row
      let rs ← loadTable parseInt parseDate rest
      pure (r :: rs)

/-- `SAMPLE_N` (source line 23). -/
def SAMPLE_N : Nat := 1500

/-- The aggregate data embedded into the generated HTML document (the `DATA`
dictionary of source lines 181-206, restricted to the aggregates modelled
here; the HTML text around it is a fixed template, so the emitted file is a
function of this structure). -/
structure Output where
  total : Nat
  avg_rating : ℚ
  rating_all : List Nat
  rating_by_year : List (Int × List Nat)
  monthly_all : List ((Int × Int) × Nat)
  monthly_pos : List ((Int × Int) × Nat)
  monthly_neg : List ((Int × Int) × Nat)
  hm : List Cell
  top : List TopReview
  sample_langs : List Lang
deriving DecidableEq

/-- The aggregate part of the pipeline as a pure function.  `sampleFn` stands
for `df.sample(n, random_state=42)` (source line 166): with the seed fixed it
is a deterministic function of the table and the sample size.  `nowYear` is
`datetime.now().year` (source line 64). -/
def pipeline (sampleFn : List Record → Nat → List Record) (l : List Record)
    (nowYear : Int) : Output :=
  { total := l.length
    avg_rating := avg_rating l
    rating_all := rating_dist l
    rating_by_year := rating_by_year l nowYear
    monthly_all := monthly_all l
    monthly_pos := monthly_pos l
    monthly_neg := monthly_neg l
    hm := hm_data l
    top := top_reviews l
    sample_langs := (sampleFn l (min SAMPLE_N l.length)).map (fun r => detect_lang r.text) }

/-- The run, with the KPI stage's fallible percentage computations sequenced
before the output is produced (the source computes the KPIs at lines 41-54,
long before writing the file at the end). -/
def runPipeline (sampleFn : List Record → Nat → List Record) (l : List Record)
    (nowYear : Int) : Except PipeError Output := do
  let _p ← pct_positive l
  let _n ← pct_negative l
  let _u ← pct_neutral l
  pure (pipeline sampleFn l nowYear)

/-- A review record with only the fields relevant to a given check filled in. -/
def mkRecord (rating yr mo thumbs : Int) : Record :=
  { author := none
    rating := rating
    text := []
    review_date := none
    review_year := yr
    review_month := mo
    thumbs_up_count := thumbs
    text_length := 0 }

/-- Five records with ratings `[5, 4, 3, 2, 1]`, the input of the spec's
end-to-end KPI example. -/
def c8_records : List Record :=
  [mkRecord 5 2023 1 0, mkRecord 4 2023 1 0, mkRecord 3 2023 2 0,
    mkRecord 2 2023 2 0, mkRecord 1 2023 3 0]

/-- Thirteen records with thumbs-up counts 1..13 — one more than the selection
size 12, so exactly the record with the smallest count is left out of the
top-reviews selection. -/
def c2_many : List Record :=
  (List.range 13).map (fun i => mkRecord 3 2023 1 ((i : Int) + 1))

/-- Projection used to compare two pipeline outcomes on their
`rating_by_year` component alone. -/
def ryProj : Except PipeError Output → List (Int × List Nat)
  | .ok o => o.rating_by_year
  | .error _ => []

/-- A raw CSV row whose date column is malformed and whose text is missing. -/
def demoRaw : RawRow :=
  { author := none
    rating := "5".toList
    text := none
    review_date := "not-a-date".toList
    review_year := "2023".toList
    review_month := "4".toList
    thumbs_up_count := 3
    text_length := 0 }

/-- The record `demoRaw` loads to under the parsers of `c7 witness` below. -/
def demoLoaded : Record :=
  { author := none
    rating := 7
    text := []
    review_date := none
    review_year := 7
    review_month := 7
    thumbs_up_count := 3
    text_length := 0 }

/-! ## Theorems -/

theorem sum_map_ite_zero {κ : Type} [DecidableEq κ] (x : κ) :
    ∀ ks : List κ, x ∉ ks → (ks.map (fun k => if x = k then (1 : ℕ) else 0)).sum = 0 := by
  intro ks
  induction ks with
  | nil => intro _; rfl
  | cons k ks ih =>
      intro h
      simp only [List.map_cons, List.sum_cons]
      rw [if_neg, ih (fun hk => h (List.mem_cons_of_mem _ hk))]
      · intro e
        exact h (e ▸ List.mem_cons_self k ks)

theorem sum_map_ite_one {κ : Type} [DecidableEq κ] (x : κ) :
    ∀ ks : List κ, ks.Nodup → x ∈ ks →
      (ks.map (fun k => if x = k then (1 : ℕ) else 0)).sum = 1 := by
  intro ks
  induction ks with
  | nil => intro _ h; cases h
  | cons k ks ih =>
      intro hnd hmem
      simp only [List.map_cons, List.sum_cons]
      rcases List.mem_cons.mp hmem with rfl | hmem
      · rw [if_pos rfl, sum_map_ite_zero x ks (List.nodup_cons.mp hnd).1]
      · have hxk : x ≠ k := by
          intro e
          exact (List.nodup_cons.mp hnd).1 (e ▸ hmem)
        rw [if_neg hxk, ih (List.nodup_cons.mp hnd).2 hmem]

/-- Counting a list bucketed over a duplicate-free list of keys that covers all
of its elements recovers the length. -/
theorem countP_key_sum {α κ : Type} [DecidableEq κ] (f : α → κ) (ks : List κ)
    (hnd : ks.Nodup) :
    ∀ l : List α, (∀ a ∈ l, f a ∈ ks) →
      (ks.map (fun k => l.countP (fun a => decide (f a = k)))).sum = l.length := by
  intro l
  induction l with
  | nil => intro _; simp
  | cons a l ih =>
      intro hcov
      have step : (ks.map (fun k => (a :: l).countP (fun x => decide (f x = k)))) =
          ks.map (fun k => l.countP (fun x => decide (f x = k)) +
            (if f a = k then 1 else 0)) := by
        refine List.map_congr_left (fun k _ => ?_)
        rw [List.countP_cons]
        by_cases h : f a = k
        · simp [h]
        · simp [h]
      rw [step, List.sum_map_add, ih (fun x hx => hcov x (List.mem_cons_of_mem _ hx)),
        sum_map_ite_one (f a) ks hnd (hcov a (List.mem_cons_self a l))]
      simp

/-- Counts of two disjoint sub-predicates of `r` sum to at most the count
of `r`. -/
theorem countP_add_countP_le {α : Type} (p q r : α → Bool)
    (hp : ∀ a, p a = true → r a = true) (hq : ∀ a, q a = true → r a = true)
    (hpq : ∀ a, ¬(p a = true ∧ q a = true)) :
    ∀ l : List α, l.countP p + l.countP q ≤ l.countP r := by
  intro l
  induction l with
  | nil => simp
  | cons a l ih =>
      simp only [List.countP_cons]
      have := hp a
      have := hq a
      have := hpq a
      by_cases h1 : p a = true <;> by_cases h2 : q a = true <;> simp_all <;> omega

/-- A stable sort does not reorder a class of mutually tied elements: filtering
the sorted list by a tie class gives the same list as filtering the input. -/
theorem filter_insertionSort_eq {α : Type} (r : α → α → Prop) [DecidableRel r]
    (p : α → Bool) (hties : ∀ a b, p a = true → p b = true → r a b) (l : List α) :
    (l.insertionSort r).filter p = l.filter p := by
  have hc : List.Sublist (l.filter p) l := List.filter_sublist l
  have hpair : (l.filter p).Pairwise r :=
    List.pairwise_of_forall_mem_list
      (fun a ha b hb => hties a b (List.of_mem_filter ha) (List.of_mem_filter hb))
  have hsub : List.Sublist (l.filter p) (l.insertionSort r) :=
    List.sublist_insertionSort hpair hc
  have hsub2 : List.Sublist ((l.filter p).filter p) ((l.insertionSort r).filter p) :=
    hsub.filter p
  rw [List.filter_filter] at hsub2
  have hself : l.filter (fun a => p a && p a) = l.filter p := by
    simp
  rw [hself] at hsub2
  have hlen : ((l.insertionSort r).filter p).length = (l.filter p).length :=
    ((List.perm_insertionSort r l).filter p).length_eq
  exact (hsub2.eq_of_length hlen.symm).symm

/-- C1: the derived sentiment is a total function of the rating alone —
rating ≥ 4 yields Positive, rating ≤ 2 yields Negative, any other rating
yields Neutral — and every record gets exactly one of the three labels. -/
theorem sentiment_total_function_of_rating (r : Int) :
    (4 ≤ r → sentiment r = .Positive) ∧
    (r ≤ 2 → sentiment r = .Negative) ∧
    (2 < r → r < 4 → sentiment r = .Neutral) ∧
    ((sentiment r = .Positive ∧ sentiment r ≠ .Neutral ∧ sentiment r ≠ .Negative) ∨
      (sentiment r = .Neutral ∧ sentiment r ≠ .Positive ∧ sentiment r ≠ .Negative) ∨
      (sentiment r = .Negative ∧ sentiment r ≠ .Positive ∧ sentiment r ≠ .Neutral)) := by
  unfold sentiment
  split_ifs with h1 h2 <;> refine ⟨?_, ?_, ?_, ?_⟩ <;> first
    | (intro h; omega)
    | (intro h h'; omega)
    | (intro h; rfl)
    | (intro h h'; rfl)
    | simp

theorem sentiment_total_function_of_rating_witness :
    sentiment 5 = .Positive ∧ sentiment 1 = .Negative ∧ sentiment 3 = .Neutral :=
  ⟨(sentiment_total_function_of_rating 5).1 (by decide),
    (sentiment_total_function_of_rating 1).2.1 (by decide),
    (sentiment_total_function_of_rating 3).2.2.1 (by decide) (by decide)⟩

/-- C8: on five records with ratings `[5,4,3,2,1]`, the computed KPIs are
`avg_rating = 3.0`, `pct_positive = 40.0`, `pct_negative = 40.0`,
`pct_neutral = 20.0`, and the overall rating histogram is `[1,1,1,1,1]`. -/
theorem c8_example_kpis :
    avg_rating c8_records = 3 ∧
    pct_positive c8_records = .ok 40 ∧
    pct_negative c8_records = .ok 40 ∧
    pct_neutral c8_records = .ok 20 ∧
    rating_dist c8_records = [1, 1, 1, 1, 1] := by
  have hpos : count_pos c8_records = 2 := by decide
  have hneg : count_neg c8_records = 2 := by decide
  have hneu : count_neu c8_records = 1 := by decide
  have hlen : c8_records.length = 5 := by decide
  refine ⟨?_, ?_, ?_, ?_, by decide⟩
  · show round2 ((c8_records.map (fun r => (r.rating : ℚ))).sum / (c8_records.length : ℚ)) = 3
    rw [hlen]
    norm_num [c8_records, mkRecord, round2, round_eq]
  · rw [pct_positive, hpos, hlen]
    norm_num [round1, round_eq]
  · rw [pct_negative, hneg, hlen]
    norm_num [round1, round_eq]
  · rw [pct_neutral, hneu, hlen]
    norm_num [round1, round_eq]

/-- A table loads successfully exactly when every row loads successfully. -/
theorem loadTable_ok_iff (parseInt : List Char → Option Int)
    (parseDate : List Char → Option (Nat × Nat × Nat)) :
    ∀ rows : List RawRow,
      (∃ recs, loadTable parseInt parseDate rows = .ok recs) ↔
        ∀ row ∈ rows, ∃ rec, loadRow parseInt parseDate row = .ok rec := by
  intro rows
  induction rows with
  | nil => simp [loadTable]
  | cons row rest ih =>
      simp only [loadTable]
      cases h : loadRow parseInt parseDate row with
      | error e =>
          constructor
          · rintro ⟨recs, hrecs⟩
            cases hrecs
          · intro hall
            rcases hall row (List.mem_cons_self row rest) with ⟨rec, hrec⟩
            rw [h] at hrec
            cases hrec
      | ok rec =>
          cases h2 : loadTable parseInt parseDate rest with
          | error e =>
              constructor
              · rintro ⟨recs, hrecs⟩
                cases hrecs
              · intro hall
                have : ∀ row ∈ rest, ∃ r, loadRow parseInt parseDate row = .ok r :=
                  fun rw hrw => hall rw (List.mem_cons_of_mem _ hrw)
                rcases ih.mpr this with ⟨recs, hrecs⟩
                rw [h2] at hrecs
                cases hrecs
          | ok recs =>
              constructor
              · intro _
                intro rw hrw
                rcases List.mem_cons.mp hrw with rfl | hrw
                · exact ⟨rec, h⟩
                · exact (ih.mp ⟨recs, h2⟩) rw hrw
              · intro _
                exact ⟨rec :: recs, rfl⟩

/-- C7: malformed dates are recovered locally as a null sentinel without
aborting; the run aborts exactly when `rating`, `review_year` or
`review_month` fails to parse as an integer; missing text loads as the empty
string, never null. -/
theorem c7_loader_error_handling (parseInt : List Char → Option Int)
    (parseDate : List Char → Option (Nat × Nat × Nat)) (row : RawRow) :
    ((∃ rec, loadRow parseInt parseDate row = .ok rec) ↔
      (∃ i, parseInt row.rating = some i) ∧ (∃ i, parseInt row.review_year = some i) ∧
        (∃ i, parseInt row.review_month = some i)) ∧
    (∀ rec, loadRow parseInt parseDate row = .ok rec →
      rec.review_date = parseDate row.review_date ∧ rec.text = row.text.getD []) ∧
    (parseDate row.review_date = none →
      ∀ rec, loadRow parseInt parseDate row = .ok rec → rec.review_date = none) ∧
    (row.text = none →
      ∀ rec, loadRow parseInt parseDate row = .ok rec → rec.text = []) ∧
    (∀ rows : List RawRow,
      (∃ recs, loadTable parseInt parseDate rows = .ok recs) ↔
        ∀ r ∈ rows, (∃ i, parseInt r.rating = some i) ∧
          (∃ i, parseInt r.review_year = some i) ∧
          (∃ i, parseInt r.review_month = some i)) := by
  have main : ∀ r : RawRow,
      ((∃ rec, loadRow parseInt parseDate r = .ok rec) ↔
        (∃ i, parseInt r.rating = some i) ∧ (∃ i, parseInt r.review_year = some i) ∧
          (∃ i, parseInt r.review_month = some i)) := by
    intro r
    unfold loadRow
    cases hra : parseInt r.rating with
    | none =>
        constructor
        · rintro ⟨rec, hrec⟩
          cases hrec
        · rintro ⟨⟨i, hi⟩, -, -⟩
          cases hi
    | some ra =>
        cases hyr : parseInt r.review_year with
        | none =>
            constructor
            · rintro ⟨rec, hrec⟩
              cases hrec
            · rintro ⟨-, ⟨i, hi⟩, -⟩
              cases hi
        | some yr =>
            cases hmo : parseInt r.review_month with
            | none =>
                constructor
                · rintro ⟨rec, hrec⟩
                  cases hrec
                · rintro ⟨-, -, ⟨i, hi⟩⟩
                  cases hi
            | some mo =>
                exact iff_of_true ⟨_, rfl⟩ ⟨⟨ra, rfl⟩, ⟨yr, rfl⟩, ⟨mo, rfl⟩⟩
  have fields : ∀ rec, loadRow parseInt parseDate row = .ok rec →
      rec.review_date = parseDate row.review_date ∧ rec.text = row.text.getD [] := by
    intro rec hrec
    unfold loadRow at hrec
    cases hra : parseInt row.rating with
    | none => rw [hra] at hrec; cases hrec
    | some ra =>
        cases hyr : parseInt row.review_year with
        | none => rw [hra, hyr] at hrec; cases hrec
        | some yr =>
            cases hmo : parseInt row.review_month with
            | none => rw [hra, hyr, hmo] at hrec; cases hrec
            | some mo =>
                rw [hra, hyr, hmo] at hrec
                cases hrec
                exact ⟨rfl, rfl⟩
  refine ⟨main row, fields, ?_, ?_, ?_⟩
  · intro hd rec hrec
    rw [(fields rec hrec).1, hd]
  · intro ht rec hrec
    rw [(fields rec hrec).2, ht]
    rfl
  · intro rows
    rw [loadTable_ok_iff parseInt parseDate rows]
    exact ⟨fun h r hr => (main r).mp (h r hr), fun h r hr => (main r).mpr (h r hr)⟩

theorem c7_loader_witness :
    demoLoaded.review_date = none ∧ demoLoaded.text = [] :=
  ⟨(c7_loader_error_handling (fun _ => some 7) (fun _ => none) demoRaw).2.2.1 rfl
      demoLoaded rfl,
    (c7_loader_error_handling (fun _ => some 7) (fun _ => none) demoRaw).2.2.2.1 rfl
      demoLoaded rfl⟩

/-- C3: the language classifier returns Arabic exactly when the Arabic
code-point count strictly exceeds the Latin-letter count; otherwise it returns
French exactly when the French marker count is at least the English marker
count (in the lower-cased text), else English; every text gets one of the
three labels. -/
theorem c3_detect_lang_classification (text : List Char) :
    (detect_lang text = .Arabic ↔
      text.countP isLatinChar < text.countP isArabicChar) ∧
    (text.countP isArabicChar ≤ text.countP isLatinChar →
      (detect_lang text = .French ↔
        enMarkerCount (text.map pyLower) ≤ frMarkerCount (text.map pyLower))) ∧
    (text.countP isArabicChar ≤ text.countP isLatinChar →
      (detect_lang text = .English ↔
        frMarkerCount (text.map pyLower) < enMarkerCount (text.map pyLower))) ∧
    (detect_lang text = .Arabic ∨ detect_lang text = .French ∨
      detect_lang text = .English) := by
  unfold detect_lang
  by_cases h : text.countP isLatinChar < text.countP isArabicChar
  · rw [if_pos h]
    exact ⟨iff_of_true rfl h, fun hle => absurd hle (by omega),
      fun hle => absurd hle (by omega), Or.inl rfl⟩
  · rw [if_neg h]
    by_cases h2 : enMarkerCount (text.map pyLower) ≤ frMarkerCount (text.map pyLower)
    · rw [if_pos h2]
      exact ⟨iff_of_false (by simp) h, fun _ => iff_of_true rfl h2,
        fun _ => iff_of_false (by simp) (by omega), Or.inr (Or.inl rfl)⟩
    · rw [if_neg h2]
      exact ⟨iff_of_false (by simp) h, fun _ => iff_of_false (by simp) h2,
        fun _ => iff_of_true rfl (by omega), Or.inr (Or.inr rfl)⟩

theorem c3_detect_lang_witness :
    detect_lang "Ana nehwes app mliha bezaf".toList ≠ .Arabic ∧
    detect_lang "Ana nehwes app mliha bezaf".toList = .French :=
  ⟨fun h =>
      absurd ((c3_detect_lang_classification "Ana nehwes app mliha bezaf".toList).1.mp h)
        (by decide),
    ((c3_detect_lang_classification "Ana nehwes app mliha bezaf".toList).2.1
        (by decide)).mpr (by decide)⟩

/-- C10: on an empty loaded table the run fails with a division-by-zero error
in the percentage KPIs before any output is produced; the percentage KPIs
succeed exactly on non-empty tables, so a non-empty input is a precondition of
the run. -/
theorem c10_empty_table_division_by_zero :
    (∀ (sampleFn : List Record → Nat → List Record) (nowYear : Int),
      runPipeline sampleFn [] nowYear = .error .divisionByZero) ∧
    (∀ l : List Record, (∃ q, pct_positive l = .ok q) ↔ l ≠ []) := by
  constructor
  · intro sf ny
    rfl
  · intro l
    cases l with
    | nil => simp [pct_positive]
    | cons a l => simp [pct_positive]

/-- C6: when every rating is an integer in 1..5, the five rating-histogram
buckets sum to the total record count, and likewise within every full-year
slice. -/
theorem c6_rating_histograms_sum (l : List Record) (nowYear : Int)
    (hr : ∀ r ∈ l, 1 ≤ r.rating ∧ r.rating ≤ 5) :
    (rating_dist l).sum = l.length ∧
    ∀ y ∈ full_years l nowYear,
      (rating_dist (l.filter (fun r => decide (r.review_year = y)))).sum =
        (l.filter (fun r => decide (r.review_year = y))).length := by
  have key : ∀ sub : List Record, (∀ r ∈ sub, 1 ≤ r.rating ∧ r.rating ≤ 5) →
      (rating_dist sub).sum = sub.length := by
    intro sub hsub
    unfold rating_dist
    refine countP_key_sum (fun r => r.rating) [1, 2, 3, 4, 5] (by decide) sub ?_
    intro a ha
    have := hsub a ha
    simp only [List.mem_cons, List.not_mem_nil, or_false]
    omega
  exact ⟨key l hr,
    fun y _ => key _ (fun r hrm => hr r (List.mem_filter.mp hrm).1)⟩

theorem c6_rating_histograms_sum_witness :
    (rating_dist c8_records).sum = c8_records.length :=
  (c6_rating_histograms_sum c8_records 2024 (by decide)).1

/-- C5: the positive and negative monthly series are indexed on exactly the
observed year-month keys of the overall series, keys with no positive
(resp. negative) records carry the count 0, and per key the positive and
negative counts sum to at most the total count. -/
theorem c5_monthly_series (l : List Record) :
    ((monthly_all l).map Prod.fst = monthlyIndex l ∧
      (monthly_pos l).map Prod.fst = monthlyIndex l ∧
      (monthly_neg l).map Prod.fst = monthlyIndex l) ∧
    (∀ k, k ∈ monthlyIndex l ↔ ∃ r ∈ l, ymKey r = k) ∧
    (∀ k ∈ monthlyIndex l,
      (¬∃ r ∈ l, sentiment r.rating = .Positive ∧ ymKey r = k) →
        (k, 0) ∈ monthly_pos l) ∧
    (∀ k ∈ monthlyIndex l,
      (¬∃ r ∈ l, sentiment r.rating = .Negative ∧ ymKey r = k) →
        (k, 0) ∈ monthly_neg l) ∧
    (∀ p ∈ monthly_pos l, ∀ n ∈ monthly_neg l, ∀ a ∈ monthly_all l,
      p.1 = a.1 → n.1 = a.1 → p.2 + n.2 ≤ a.2) := by
  refine ⟨⟨?_, ?_, ?_⟩, ?_, ?_, ?_, ?_⟩
  · unfold monthly_all
    rw [List.map_map]
    exact List.map_id'' (fun _ => rfl) _
  · unfold monthly_pos
    rw [List.map_map]
    exact List.map_id'' (fun _ => rfl) _
  · unfold monthly_neg
    rw [List.map_map]
    exact List.map_id'' (fun _ => rfl) _
  · intro k
    simp [monthlyIndex, List.mem_insertionSort, List.mem_dedup, List.mem_map]
  · intro k hk hno
    have hz : l.countP
        (fun r => decide (sentiment r.rating = .Positive ∧ ymKey r = k)) = 0 := by
      rw [List.countP_eq_zero]
      intro a ha
      simp only [decide_eq_true_eq]
      intro hcon
      exact hno ⟨a, ha, hcon⟩
    exact List.mem_map.mpr ⟨k, hk, by rw [hz]⟩
  · intro k hk hno
    have hz : l.countP
        (fun r => decide (sentiment r.rating = .Negative ∧ ymKey r = k)) = 0 := by
      rw [List.countP_eq_zero]
      intro a ha
      simp only [decide_eq_true_eq]
      intro hcon
      exact hno ⟨a, ha, hcon⟩
    exact List.mem_map.mpr ⟨k, hk, by rw [hz]⟩
  · intro p hp n hn a ha hpa hna
    rcases List.mem_map.mp hp with ⟨kp, _, rfl⟩
    rcases List.mem_map.mp hn with ⟨kn, _, rfl⟩
    rcases List.mem_map.mp ha with ⟨ka, _, rfl⟩
    simp only at hpa hna ⊢
    subst hpa
    subst hna
    refine countP_add_countP_le _ _ _ ?_ ?_ ?_ l
    · intro x hx
      simp only [decide_eq_true_eq] at hx ⊢
      exact hx.2
    · intro x hx
      simp only [decide_eq_true_eq] at hx ⊢
      exact hx.2
    · intro x hx
      rcases hx with ⟨h1, h2⟩
      simp only [decide_eq_true_eq] at h1 h2
      rw [h1.1] at h2
      cases h2.1

theorem c5_monthly_series_witness :
    (((2023 : Int), (3 : Int)), 0) ∈ monthly_pos c8_records ∧ (0 : ℕ) + 1 ≤ 2 :=
  ⟨(c5_monthly_series c8_records).2.2.1 ((2023 : Int), (3 : Int)) (by decide) (by decide),
    (c5_monthly_series c8_records).2.2.2.2
      (((2023 : Int), (2 : Int)), 0) (by decide)
      (((2023 : Int), (2 : Int)), 1) (by decide)
      (((2023 : Int), (2 : Int)), 2) (by decide) rfl rfl⟩

/-- C2: the top-reviews list has length `min 12 total`, selects records with
the largest thumbs-up counts (no record outside the selection beats one
inside), is sorted descending by thumbs-up count, breaks ties by input order
(its tie classes are prefixes of the input's tie classes), puts a strict
maximum first, truncates the projected author/date/text fields to 30/10/300
characters, and defaults a missing author to `"Anonymous"`. -/
theorem c2_top_reviews_selection (l : List Record) :
    ((top_reviews l).length = min 12 l.length) ∧
    (∀ r ∈ l, r ∉ top_reviews_raw l →
      ∀ s ∈ top_reviews_raw l, r.thumbs_up_count ≤ s.thumbs_up_count) ∧
    ((top_reviews l).Pairwise (fun a b => b.thumbs ≤ a.thumbs)) ∧
    (∀ t : Int, ∃ rest,
      (top_reviews_raw l).filter (fun r => decide (r.thumbs_up_count = t)) ++ rest =
        l.filter (fun r => decide (r.thumbs_up_count = t))) ∧
    (∀ r ∈ l, (∀ r' ∈ l, r' ≠ r → r'.thumbs_up_count < r.thumbs_up_count) →
      (top_reviews l).head? = some (projectReview r)) ∧
    (∀ e ∈ top_reviews l,
      e.author.length ≤ 30 ∧ e.date.length ≤ 10 ∧ e.text.length ≤ 300) ∧
    (∀ r : Record, r.author = none → (projectReview r).author = "Anonymous".toList) := by
  refine ⟨?_, ?_, ?_, ?_, ?_, ?_, ?_⟩
  · simp [top_reviews, top_reviews_raw, List.length_take, List.length_insertionSort]
  · intro r hr hnot s hs
    have hsorted : (l.insertionSort thumbsGE).Pairwise thumbsGE :=
      List.sorted_insertionSort thumbsGE l
    have hsplit : (l.insertionSort thumbsGE).take 12 ++ (l.insertionSort thumbsGE).drop 12 =
        l.insertionSort thumbsGE := List.take_append_drop 12 _
    rw [← hsplit] at hsorted
    have hcross := (List.pairwise_append.mp hsorted).2.2
    have hrmem : r ∈ l.insertionSort thumbsGE := (List.mem_insertionSort thumbsGE).mpr hr
    rw [← hsplit] at hrmem
    rcases List.mem_append.mp hrmem with htake | hdrop
    · exact absurd htake hnot
    · exact hcross s hs r hdrop
  · have hsorted : (l.insertionSort thumbsGE).Pairwise thumbsGE :=
      List.sorted_insertionSort thumbsGE l
    have htake : (top_reviews_raw l).Pairwise thumbsGE :=
      hsorted.sublist (List.take_sublist 12 _)
    exact htake.map projectReview (fun a b h => h)
  · intro t
    have hties : ∀ a b : Record,
        (fun r => decide (r.thumbs_up_count = t)) a = true →
        (fun r => decide (r.thumbs_up_count = t)) b = true → thumbsGE a b := by
      intro a b ha hb
      simp only [decide_eq_true_eq] at ha hb
      unfold thumbsGE
      omega
    have heq := filter_insertionSort_eq thumbsGE
      (fun r => decide (r.thumbs_up_count = t)) hties l
    refine ⟨((l.insertionSort thumbsGE).drop 12).filter
      (fun r => decide (r.thumbs_up_count = t)), ?_⟩
    rw [top_reviews_raw, ← List.filter_append, List.take_append_drop, heq]
  · intro r hr hmax
    have hmem : r ∈ l.insertionSort thumbsGE := (List.mem_insertionSort thumbsGE).mpr hr
    cases hs : l.insertionSort thumbsGE with
    | nil => rw [hs] at hmem; cases hmem
    | cons h tl =>
        have hsort : (h :: tl).Pairwise thumbsGE :=
          hs ▸ List.sorted_insertionSort thumbsGE l
        have hh : h ∈ l := (List.mem_insertionSort thumbsGE).mp (hs ▸ List.mem_cons_self h tl)
        have hr' : r = h := by
          by_contra hne
          have h1 : h.thumbs_up_count < r.thumbs_up_count :=
            hmax h hh (fun e => hne e.symm)
          have hrmem : r ∈ h :: tl := hs ▸ hmem
          rcases List.mem_cons.mp hrmem with rfl | htl
          · exact hne rfl
          · have h2 : thumbsGE h r := (List.pairwise_cons.mp hsort).1 r htl
            unfold thumbsGE at h2
            omega
        subst hr'
        rw [top_reviews, top_reviews_raw, hs]
        rfl
  · intro e he
    rcases List.mem_map.mp he with ⟨r, _, rfl⟩
    refine ⟨?_, ?_, ?_⟩
    · show ((r.author.getD "Anonymous".toList).take 30).length ≤ 30
      rw [List.length_take]
      exact min_le_left _ _
    · show ((pyDateStr r.review_date).take 10).length ≤ 10
      rw [List.length_take]
      exact min_le_left _ _
    · show (r.text.take 300).length ≤ 300
      rw [List.length_take]
      exact min_le_left _ _
  · intro r h
    show ((r.author.getD "Anonymous".toList).take 30) = "Anonymous".toList
    rw [h]
    rfl

theorem c2_top_reviews_selection_witness :
    ((top_reviews [mkRecord 5 2023 1 5, mkRecord 2 2023 2 10]).head? =
      some (projectReview (mkRecord 2 2023 2 10))) ∧
    (mkRecord 3 2023 1 1).thumbs_up_count ≤ (mkRecord 3 2023 1 13).thumbs_up_count :=
  ⟨(c2_top_reviews_selection [mkRecord 5 2023 1 5, mkRecord 2 2023 2 10]).2.2.2.2.1
      (mkRecord 2 2023 2 10) (by decide) (by decide),
    (c2_top_reviews_selection c2_many).2.1 (mkRecord 3 2023 1 1) (by decide) (by decide)
      (mkRecord 3 2023 1 13) (by decide)⟩

/-- The bubble radius numerator is the nearest integer to `sqrt(v) * 15`
(there is never a tie: `4 * 225 * v` is even while `(2k+1)^2` is odd). -/
theorem hmRadiusNum_eq_round_sqrt (v : ℕ) :
    (hmRadiusNum v : ℤ) = round (Real.sqrt (v : ℝ) * 15) := by
  obtain ⟨s, hs⟩ : ∃ s, Nat.sqrt (225 * v) = s := ⟨_, rfl⟩
  have hs1 : s * s ≤ 225 * v := hs ▸ Nat.sqrt_le (225 * v)
  have hs2 : 225 * v < (s + 1) * (s + 1) := hs ▸ Nat.lt_succ_sqrt (225 * v)
  have hs1R : (s : ℝ) * (s : ℝ) ≤ 225 * (v : ℝ) := by exact_mod_cast hs1
  have hs2R : 225 * (v : ℝ) < ((s : ℝ) + 1) * ((s : ℝ) + 1) := by exact_mod_cast hs2
  have h225 : Real.sqrt (225 * (v : ℝ)) = Real.sqrt (v : ℝ) * 15 := by
    rw [show (225 : ℝ) * (v : ℝ) = 15 ^ 2 * (v : ℝ) by norm_num]
    rw [Real.sqrt_mul (by norm_num) (v : ℝ)]
    rw [Real.sqrt_sq (by norm_num : (0 : ℝ) ≤ 15)]
    ring
  have h1 : (s : ℝ) ≤ Real.sqrt (225 * (v : ℝ)) := by
    rw [Real.le_sqrt (by positivity) (by positivity)]
    nlinarith [hs1R]
  have h2 : Real.sqrt (225 * (v : ℝ)) < (s : ℝ) + 1 := by
    rw [Real.sqrt_lt' (by positivity)]
    nlinarith [hs2R]
  rw [round_eq, ← h225]
  unfold hmRadiusNum
  rw [hs]
  by_cases hcase : (2 * s + 1) ^ 2 ≤ 4 * (225 * v)
  · rw [if_pos hcase]
    have hcaseR : (2 * (s : ℝ) + 1) ^ 2 ≤ 4 * (225 * (v : ℝ)) := by exact_mod_cast hcase
    have hge : (s : ℝ) + 1 / 2 ≤ Real.sqrt (225 * (v : ℝ)) := by
      rw [Real.le_sqrt (by positivity) (by positivity)]
      nlinarith [hcaseR]
    have hfl : ⌊Real.sqrt (225 * (v : ℝ)) + 1 / 2⌋ = (s : ℤ) + 1 := by
      apply Int.floor_eq_iff.mpr
      constructor
      · push_cast
        linarith
      · push_cast
        linarith
    rw [hfl]
    push_cast
    ring
  · rw [if_neg hcase]
    have hcaseR : 4 * (225 * (v : ℝ)) < (2 * (s : ℝ) + 1) ^ 2 := by
      exact_mod_cast Nat.lt_of_not_le hcase
    have hlt : Real.sqrt (225 * (v : ℝ)) < (s : ℝ) + 1 / 2 := by
      rw [Real.sqrt_lt' (by positivity)]
      nlinarith [hcaseR]
    have hfl : ⌊Real.sqrt (225 * (v : ℝ)) + 1 / 2⌋ = (s : ℤ) := by
      apply Int.floor_eq_iff.mpr
      constructor
      · push_cast
        linarith
      · push_cast
        linarith
    rw [hfl]

/-- Sum of a numeric projection over a `flatMap`, bucket by bucket. -/
theorem sum_map_flatMap {α β : Type} (g : β → ℕ) (f : α → List β) :
    ∀ l : List α, ((l.flatMap f).map g).sum = (l.map (fun a => ((f a).map g).sum)).sum := by
  intro l
  induction l with
  | nil => rfl
  | cons a l ih =>
      simp only [List.flatMap_cons, List.map_cons, List.map_append, List.sum_append,
        List.sum_cons, ih]

/-- C4: when every month lies in 1..12, the density-grid cells are exactly the
`(year, month)` pairs with a nonzero count, each cell carries that count and
the radius `sqrt(count)*1.5` rounded to one decimal, and the cell counts sum
to the total record count. -/
theorem c4_density_grid (l : List Record)
    (hmo : ∀ r ∈ l, 1 ≤ r.review_month ∧ r.review_month ≤ 12) :
    (∀ yr mo : Int, 1 ≤ mo → mo ≤ 12 →
      ((yr, mo) ∈ (hm_data l).map (cellPair l) ↔ 0 < countYM l yr mo)) ∧
    (∀ c ∈ hm_data l,
      0 < c.v ∧ c.v = countYM l (cellPair l c).1 (cellPair l c).2 ∧
      c.r = (hmRadiusNum c.v : ℚ) / 10 ∧
      (c.r : ℝ) * 10 = ((round (Real.sqrt (c.v : ℝ) * 1.5 * 10) : ℤ) : ℝ)) ∧
    ((hm_data l).map Cell.v).sum = l.length := by
  have percell : ∀ c ∈ hm_data l,
      0 < c.v ∧ c.v = countYM l (cellPair l c).1 (cellPair l c).2 ∧
      c.r = (hmRadiusNum c.v : ℚ) / 10 := by
    intro c hc
    unfold hm_data at hc
    rcases List.mem_flatMap.mp hc with ⟨p, hp, hc2⟩
    rcases List.mem_flatMap.mp hc2 with ⟨mi, hmi, hc3⟩
    by_cases hv : 0 < countYM l p.2 ((mi : Int) + 1)
    · rw [if_pos hv] at hc3
      rcases List.mem_singleton.mp hc3 with rfl
      have hget : (hm_years l).get? p.1 = some p.2 :=
        List.mk_mem_enum_iff_get?.mp (by exact hp)
      refine ⟨hv, ?_, rfl⟩
      show countYM l p.2 ((mi : Int) + 1) =
        countYM l (((hm_years l).get? p.1).getD 0) ((mi : Int) + 1)
      rw [hget]
      rfl
    · rw [if_neg hv] at hc3
      cases hc3
  have radius_real : ∀ v : ℕ, (((hmRadiusNum v : ℚ) / 10 : ℚ) : ℝ) * 10 =
      ((round (Real.sqrt (v : ℝ) * 1.5 * 10) : ℤ) : ℝ) := by
    intro v
    have harg : Real.sqrt (v : ℝ) * 1.5 * 10 = Real.sqrt (v : ℝ) * 15 := by
      rw [mul_assoc]
      norm_num
    rw [harg, ← hmRadiusNum_eq_round_sqrt v]
    push_cast
    ring
  refine ⟨?_, ?_, ?_⟩
  · intro yr mo h1mo h12mo
    constructor
    · intro hmem
      rcases List.mem_map.mp hmem with ⟨c, hc, hpair⟩
      have hcv := (percell c hc).2.1
      rw [hpair] at hcv
      simp only at hcv
      rw [← hcv]
      exact (percell c hc).1
    · intro hcnt
      rcases (List.countP_pos_iff).mp hcnt with ⟨r, hr, hre⟩
      simp only [decide_eq_true_eq] at hre
      have hyr : yr ∈ hm_years l := by
        unfold hm_years uniqueYears
        rw [List.mem_insertionSort]
        exact List.mem_dedup.mpr (List.mem_map.mpr ⟨r, hr, hre.1⟩)
      rcases List.mem_iff_get?.mp hyr with ⟨i, hgi⟩
      have henum : (i, yr) ∈ (hm_years l).enum := List.mk_mem_enum_iff_get?.mpr hgi
      have hmi12 : (mo - 1).toNat < 12 := by omega
      have hmieq : (((mo - 1).toNat : Int)) + 1 = mo := by omega
      have hcell : (⟨i, (mo - 1).toNat, (hmRadiusNum (countYM l yr mo) : ℚ) / 10,
          countYM l yr mo⟩ : Cell) ∈ hm_data l := by
        unfold hm_data
        apply List.mem_flatMap.mpr
        refine ⟨(i, yr), henum, ?_⟩
        apply List.mem_flatMap.mpr
        refine ⟨(mo - 1).toNat, List.mem_range.mpr hmi12, ?_⟩
        rw [hmieq, if_pos hcnt]
        exact List.mem_singleton.mpr rfl
      apply List.mem_map.mpr
      refine ⟨_, hcell, ?_⟩
      show (((hm_years l).get? i).getD 0, (((mo - 1).toNat : Int)) + 1) = (yr, mo)
      rw [hgi, hmieq]
      rfl
  · intro c hc
    rcases percell c hc with ⟨hv, hcnt, hr⟩
    refine ⟨hv, hcnt, hr, ?_⟩
    rw [hr]
    exact radius_real c.v
  · unfold hm_data
    rw [sum_map_flatMap]
    have inner : ∀ p : ℕ × Int, p ∈ (hm_years l).enum →
        ((((List.range 12).flatMap (fun mi =>
          if 0 < countYM l p.2 ((mi : Int) + 1) then
            [(⟨p.1, mi, (hmRadiusNum (countYM l p.2 ((mi : Int) + 1)) : ℚ) / 10,
              countYM l p.2 ((mi : Int) + 1)⟩ : Cell)]
          else [])).map Cell.v).sum) =
        l.countP (fun r => decide (r.review_year = p.2)) := by
      intro p _
      rw [sum_map_flatMap]
      have pointwise : ∀ mi ∈ List.range 12,
          (((if 0 < countYM l p.2 ((mi : Int) + 1) then
            [(⟨p.1, mi, (hmRadiusNum (countYM l p.2 ((mi : Int) + 1)) : ℚ) / 10,
              countYM l p.2 ((mi : Int) + 1)⟩ : Cell)]
          else []).map Cell.v).sum) = countYM l p.2 ((mi : Int) + 1) := by
        intro mi _
        by_cases hv : 0 < countYM l p.2 ((mi : Int) + 1)
        · rw [if_pos hv]
          simp
        · rw [if_neg hv]
          simp only [List.map_nil, List.sum_nil]
          omega
      rw [List.map_congr_left pointwise]
      have hcYM : ∀ mo : Int, countYM l p.2 mo =
          (l.filter (fun r => decide (r.review_year = p.2))).countP
            (fun r => decide (r.review_month = mo)) := by
        intro mo
        unfold countYM
        rw [List.countP_filter]
        simp only [Bool.decide_and, Bool.and_comm]
      have step : (List.range 12).map (fun mi : ℕ => countYM l p.2 ((mi : Int) + 1)) =
          ((List.range 12).map (fun mi : ℕ => ((mi : Int) + 1))).map
            (fun k => (l.filter (fun r => decide (r.review_year = p.2))).countP
              (fun r => decide (r.review_month = k))) := by
        rw [List.map_map]
        exact List.map_congr_left (fun mi _ => hcYM ((mi : Int) + 1))
      rw [step]
      have hnd : ((List.range 12).map (fun mi : ℕ => ((mi : Int) + 1))).Nodup := by
        refine (List.nodup_range 12).map ?_
        intro a b hab
        dsimp only at hab
        omega
      have hcov : ∀ a ∈ l.filter (fun r => decide (r.review_year = p.2)),
          a.review_month ∈ (List.range 12).map (fun mi : ℕ => ((mi : Int) + 1)) := by
        intro a ha
        have hal : a ∈ l := (List.mem_filter.mp ha).1
        have := hmo a hal
        apply List.mem_map.mpr
        refine ⟨(a.review_month - 1).toNat, List.mem_range.mpr (by omega), by omega⟩
      rw [countP_key_sum (fun r : Record => r.review_month) _ hnd _ hcov]
      rw [List.countP_eq_length_filter]
    rw [List.map_congr_left inner]
    have step1 : ((hm_years l).enum.map
        (fun p => l.countP (fun r => decide (r.review_year = p.2)))).sum =
        ((hm_years l).map
          (fun yr => l.countP (fun r => decide (r.review_year = yr)))).sum := by
      conv_rhs => rw [← List.enum_map_snd (hm_years l)]
      rw [List.map_map]
      rfl
    rw [step1]
    have hnd2 : (hm_years l).Nodup :=
      ((List.perm_insertionSort _ _).nodup_iff).mpr (List.nodup_dedup _)
    have hcov2 : ∀ a ∈ l, a.review_year ∈ hm_years l := by
      intro a ha
      unfold hm_years uniqueYears
      rw [List.mem_insertionSort]
      exact List.mem_dedup.mpr (List.mem_map.mpr ⟨a, ha, rfl⟩)
    exact countP_key_sum (fun r : Record => r.review_year) _ hnd2 _ hcov2

theorem c4_density_grid_witness :
    ((((2023 : Int), (1 : Int)) ∈ (hm_data c8_records).map (cellPair c8_records)) ↔
      0 < countYM c8_records 2023 1) ∧
    ((hm_data c8_records).map Cell.v).sum = c8_records.length :=
  ⟨(c4_density_grid c8_records (by decide)).1 2023 1 (by decide) (by decide),
    (c4_density_grid c8_records (by decide)).2.2⟩


/-- C9 counterexample: the pipeline's output is not a function of the input
file and the sampling seed alone — it also depends on the calendar year of the
run through `datetime.now().year` (source line 64).  On a one-record table
from 2024, a run during 2024 and a run during 2025 produce different
`rating_by_year` components (the 2024 slice appears only once 2024 is a full
year), hence different outputs. -/
theorem c9_output_depends_on_run_year :
    runPipeline (fun l _ => l) [mkRecord 5 2024 1 0] 2024 ≠
      runPipeline (fun l _ => l) [mkRecord 5 2024 1 0] 2025 :=
  fun h => absurd (congrArg ryProj h) (by decide)

/-- C9 amended: two runs of the pipeline on an unchanged input file, with the
unchanged sampling seed, and during the same calendar year produce identical
output — the pipeline is a deterministic function of the input table, the
sampling function (fixed by the seed) and the current year. -/
theorem c9_deterministic_given_year (sampleFn : List Record → Nat → List Record)
    (l : List Record) (y₁ y₂ : Int) (h : y₁ = y₂) :
    runPipeline sampleFn l y₁ = runPipeline sampleFn l y₂ := by
  rw [h]

theorem c9_deterministic_given_year_witness :
    runPipeline (fun l _ => l) c8_records 2024 =
      runPipeline (fun l _ => l) c8_records 2024 :=
  c9_deterministic_given_year (fun l _ => l) c8_records 2024 2024 rfl


end Dashboard
